import Mathlib

/-!
Verification development for the task-routing / handoff-protocol repository.

The definitions below are a shallow embedding of the Python sources:
* `agent/mcp_agent_mail_client.py` (`_extract_structured_content`),
* `agent/enhanced_orchestrator.py` (registry, tag extraction, matching,
  batch routing, routing suggestions),
* `agent/handoff_protocol.py` (`create_task_assignment_message`),
* `agent/orchestrator.py` (`delegate_task` message-content construction).

Python dicts are modelled as association lists with dict-update semantics,
JSON values as the inductive type `Json`, `json.loads` as the strict JSON
parser `jsonLoads` (fuel-based recursive descent; the Python-specific
`NaN`/`Infinity` extension of `json.loads` is not modelled, no claim
touches it), and floats as exact rationals (all scores are quotients of
small set cardinalities, far from any double-rounding boundary).
-/

/-- JSON values.  Numbers are kept exact as `mantissa * 10 ^ exp10`
(Python distinguishes int and float; no claim compares across the two
representations).  Objects are association lists in insertion order with
dict semantics (a duplicate key overwrites in place). -/
inductive Json where
  | null : Json
  | bool (b : Bool) : Json
  | num (mantissa : Int) (exp10 : Int) : Json
  | str (s : String) : Json
  | arr (elems : List Json) : Json
  | obj (fields : List (String × Json)) : Json

/-- First-match lookup in an association list (Python `d[k]` / `k in d`;
keys produced by the embedded code are unique). -/
def jlookup {α : Type} : List (String × α) → String → Option α
  | [], _ => none
  | (k, v) :: rest, key => if k = key then some v else jlookup rest key

/-- Python `d[k] = v`: overwrite in place if the key exists, else append. -/
def objSet {α : Type} : List (String × α) → String → α → List (String × α)
  | [], k, v => [(k, v)]
  | (k0, v0) :: rest, k, v =>
    if k0 = k then (k, v) :: rest else (k0, v0) :: objSet rest k v

/-- Python `x.get(k)` on a value expected to be a dict.  (On a non-dict
Python would raise `AttributeError`; every claim constrains the value to
be a dict, so that branch is modelled as `none`.) -/
def jget (v : Json) (k : String) : Option Json :=
  match v with
  | Json.obj kvs => jlookup kvs k
  | _ => none

-- Characters that are awkward as literals, by code point.
def quoteChar : Char := Char.ofNat 34
def apostChar : Char := Char.ofNat 39
def backslashChar : Char := Char.ofNat 92
def lbraceChar : Char := Char.ofNat 123
def rbraceChar : Char := Char.ofNat 125
def lbrackChar : Char := Char.ofNat 91
def rbrackChar : Char := Char.ofNat 93

/-- Does the second list start with the first one? -/
def beginsWith : List Char → List Char → Bool
  | [], _ => true
  | _ :: _, [] => false
  | a :: as, b :: bs => a == b && beginsWith as bs

/-- Is `needle` a contiguous sublist of `hay`? -/
def hasSub (needle : List Char) : List Char → Bool
  | [] => needle.isEmpty
  | c :: cs => beginsWith needle (c :: cs) || hasSub needle cs

/-- Python `needle in hay` for strings. -/
def pyIn (needle hay : String) : Bool :=
  hasSub needle.toList hay.toList

/-- Python `s.lower()` (ASCII; the embedded keyword tables are ASCII). -/
def pyLower (s : String) : String :=
  String.mk (s.toList.map Char.toLower)

/-- Python whitespace for `str.strip()`. -/
def wsChar (c : Char) : Bool :=
  c == ' ' || c == '\t' || c == '\n' || c == '\r' || c.toNat == 11 || c.toNat == 12

/-- Strip characters satisfying `p` from both ends (Python `str.strip`). -/
def stripEnds (p : Char → Bool) (l : List Char) : List Char :=
  ((l.dropWhile p).reverse.dropWhile p).reverse

/-- Python `s.replace(pat, rep)` with a non-empty pattern: replace all
non-overlapping occurrences left to right.  Fueled by the input length. -/
def replaceAllAux (pat rep : List Char) : Nat → List Char → List Char
  | 0, s => s
  | _ + 1, [] => []
  | fuel + 1, c :: cs =>
    if beginsWith pat (c :: cs) then
      rep ++ replaceAllAux pat rep fuel ((c :: cs).drop pat.length)
    else
      c :: replaceAllAux pat rep fuel cs

def pyReplace (s pat rep : String) : String :=
  String.mk (replaceAllAux pat.toList rep.toList (s.toList.length + 1) s.toList)

-- ### A strict JSON parser modelling `json.loads`.

def skipWs : List Char → List Char
  | [] => []
  | c :: cs => if wsChar c then skipWs cs else c :: cs

def digitVal (c : Char) : Option Nat :=
  if 48 ≤ c.toNat && c.toNat ≤ 57 then some (c.toNat - 48) else none

/-- Longest run of decimal digits at the head of the input. -/
def takeDigits : List Char → (List Nat × List Char)
  | [] => ([], [])
  | c :: cs =>
    match digitVal c with
    | some d =>
      let (ds, rest) := takeDigits cs
      (d :: ds, rest)
    | none => ([], c :: cs)

def digitsToNat (ds : List Nat) : Nat :=
  ds.foldl (fun acc d => acc * 10 + d) 0

def hexVal (c : Char) : Option Nat :=
  if 48 ≤ c.toNat && c.toNat ≤ 57 then some (c.toNat - 48)
  else if 97 ≤ c.toNat && c.toNat ≤ 102 then some (c.toNat - 87)
  else if 65 ≤ c.toNat && c.toNat ≤ 70 then some (c.toNat - 55)
  else none

/-- JSON string body after the opening quote: returns the decoded
characters and the input after the closing quote.  Raw control characters
are rejected (strict mode), standard escapes are decoded; a `\uXXXX`
escape is decoded through `Char.ofNat` (surrogate code points, which
Python would keep as lone surrogates, fall back to the null character —
no claim uses them). -/
def parseStr : Nat → List Char → Option (List Char × List Char)
  | 0, _ => none
  | _ + 1, [] => none
  | fuel + 1, c :: cs =>
    if c == quoteChar then some ([], cs)
    else if c == backslashChar then
      match cs with
      | [] => none
      | e :: cs2 =>
        let simple : Option Char :=
          if e == quoteChar then some quoteChar
          else if e == backslashChar then some backslashChar
          else if e == '/' then some '/'
          else if e == 'b' then some (Char.ofNat 8)
          else if e == 'f' then some (Char.ofNat 12)
          else if e == 'n' then some '\n'
          else if e == 'r' then some '\r'
          else if e == 't' then some '\t'
          else none
        match simple with
        | some ch =>
          match parseStr fuel cs2 with
          | some (body, rest) => some (ch :: body, rest)
          | none => none
        | none =>
          if e == 'u' then
            match cs2 with
            | h1 :: h2 :: h3 :: h4 :: cs3 =>
              match hexVal h1, hexVal h2, hexVal h3, hexVal h4 with
              | some a, some b, some c3, some d =>
                let code := ((a * 16 + b) * 16 + c3) * 16 + d
                match parseStr fuel cs3 with
                | some (body, rest) => some (Char.ofNat code :: body, rest)
                | none => none
              | _, _, _, _ => none
            | _ => none
          else none
    else if c.toNat < 32 then none
    else
      match parseStr fuel cs with
      | some (body, rest) => some (c :: body, rest)
      | none => none

/-- JSON number (strict grammar: `-? int frac? exp?`, no leading zeros). -/
def parseNumber (s : List Char) : Option (Json × List Char) :=
  let (neg, s1) :=
    match s with
    | c :: cs => if c == '-' then (true, cs) else (false, s)
    | [] => (false, s)
  let (intDs, s2) := takeDigits s1
  match intDs with
  | [] => none
  | d0 :: drest =>
    if d0 == 0 && drest ≠ [] then none
    else
      let (fracDs, s3) :=
        match s2 with
        | c :: cs =>
          if c == '.' then
            let (ds, rest) := takeDigits cs
            (ds, rest)
          else ([], s2)
        | [] => ([], s2)
      -- a dot with no digit after it is invalid
      let dotted : Bool :=
        match s2 with
        | c :: _ => c == '.'
        | [] => false
      if dotted && fracDs = [] then none
      else
        let expPart : Option (Int × List Char) :=
          match s3 with
          | c :: cs =>
            if c == 'e' || c == 'E' then
              let (esign, cs2) :=
                match cs with
                | c2 :: cs3 =>
                  if c2 == '-' then ((-1 : Int), cs3)
                  else if c2 == '+' then ((1 : Int), cs3)
                  else ((1 : Int), cs)
                | [] => ((1 : Int), cs)
              let (eds, rest) := takeDigits cs2
              if eds = [] then none else some (esign * digitsToNat eds, rest)
            else some (0, s3)
          | [] => some (0, s3)
        match expPart with
        | none => none
        | some (e, s4) =>
          let mag : Nat := digitsToNat (intDs ++ fracDs)
          let mant : Int := if neg then -(mag : Int) else (mag : Int)
          some (Json.num mant (e - (fracDs.length : Int)), s4)

mutual

/-- One JSON value (leading whitespace allowed), returning the rest. -/
def parseVal : Nat → List Char → Option (Json × List Char)
  | 0, _ => none
  | fuel + 1, s =>
    match skipWs s with
    | [] => none
    | c :: cs =>
      if c == quoteChar then
        match parseStr fuel cs with
        | some (body, rest) => some (Json.str (String.mk body), rest)
        | none => none
      else if c == lbraceChar then
        match skipWs cs with
        | c2 :: cs2 =>
          if c2 == rbraceChar then some (Json.obj [], cs2)
          else parseObjBody fuel (c2 :: cs2) []
        | [] => none
      else if c == lbrackChar then
        match skipWs cs with
        | c2 :: cs2 =>
          if c2 == rbrackChar then some (Json.arr [], cs2)
          else parseArrBody fuel (c2 :: cs2) []
        | [] => none
      else if beginsWith "true".toList (c :: cs) then
        some (Json.bool true, (c :: cs).drop 4)
      else if beginsWith "false".toList (c :: cs) then
        some (Json.bool false, (c :: cs).drop 5)
      else if beginsWith "null".toList (c :: cs) then
        some (Json.null, (c :: cs).drop 4)
      else
        parseNumber (c :: cs)

/-- Members of an object, positioned at a key; duplicate keys overwrite
(Python dict semantics). -/
def parseObjBody : Nat → List Char → List (String × Json) → Option (Json × List Char)
  | 0, _, _ => none
  | fuel + 1, s, acc =>
    match s with
    | c :: cs =>
      if c == quoteChar then
        match parseStr fuel cs with
        | some (keyChars, r1) =>
          match skipWs r1 with
          | c2 :: r2 =>
            if c2 == ':' then
              match parseVal fuel r2 with
              | some (v, r3) =>
                let acc2 := objSet acc (String.mk keyChars) v
                match skipWs r3 with
                | c3 :: r4 =>
                  if c3 == ',' then parseObjBody fuel (skipWs r4) acc2
                  else if c3 == rbraceChar then some (Json.obj acc2, r4)
                  else none
                | [] => none
              | none => none
            else none
          | [] => none
        | none => none
      else none
    | [] => none

/-- Elements of an array, positioned at a value. -/
def parseArrBody : Nat → List Char → List Json → Option (Json × List Char)
  | 0, _, _ => none
  | fuel + 1, s, acc =>
    match parseVal fuel s with
    | some (v, r1) =>
      match skipWs r1 with
      | c :: r2 =>
        if c == ',' then parseArrBody fuel r2 (acc ++ [v])
        else if c == rbrackChar then some (Json.arr (acc ++ [v]), r2)
        else none
      | [] => none
    | none => none

end

/-- `json.loads`: parse one value and require only whitespace after it.
`none` models a raised `json.JSONDecodeError`. -/
def jsonLoads (s : String) : Option Json :=
  match parseVal (s.toList.length + 1) s.toList with
  | some (v, rest) => if (skipWs rest).isEmpty then some v else none
  | none => none

-- ### ResponseNormalizer: `_extract_structured_content` (mcp_agent_mail_client.py)

/-- Embedding of `_extract_structured_content`.  A raised `Exception(text)`
is `Except.error text`; `return x` is `Except.ok x`; returning the whole
raw response is `Except.ok (Json.obj resp)`.  (Where the Python would
crash on a non-conforming shape — e.g. `content` bound to a non-list —
the model falls through to returning the response; no claim reaches
those shapes.) -/
def extract_structured_content (resp : List (String × Json)) : Except String Json :=
  -- error check on content[0]: `"Error" in text or "not found" in text.lower()`
  let errText : Option String :=
    match jlookup resp "content" with
    | some (Json.arr (c :: _)) =>
      match jget c "type" with
      | some (Json.str ty) =>
        if ty = "text" then
          let t :=
            match jget c "text" with
            | some (Json.str s) => s
            | _ => ""
          if pyIn "Error" t || pyIn "not found" (pyLower t) then some t else none
        else none
      | _ => none
    | _ => none
  match errText with
  | some t => Except.error t
  | none =>
    -- Case 1: structuredContent directly available
    match jlookup resp "structuredContent" with
    | some sc => Except.ok sc
    | none =>
      match jlookup resp "result", jlookup resp "content" with
      -- Case 2: result present, content absent
      | some r, none => Except.ok r
      -- Case 3: tools/call format - parse content[0].text as JSON
      | some _, some contentVal =>
        (match contentVal with
         | Json.arr (c :: _) =>
           (match jget c "type" with
            | some (Json.str ty) =>
              if ty = "text" then
                let t :=
                  match jget c "text" with
                  | some (Json.str s) => s
                  | _ => "\x7b\x7d"   -- `.get("text", "{}")`
                match jsonLoads t with
                | some v => Except.ok v
                | none => Except.ok (Json.obj resp)
              else Except.ok (Json.obj resp)
            | _ => Except.ok (Json.obj resp))
         | _ => Except.ok (Json.obj resp))
      -- fall through: return original response
      | none, _ => Except.ok (Json.obj resp)

-- ### Task records, tag extraction and matching (enhanced_orchestrator.py)

/-- A task record as read from `bd` (`title`, `description`, `notes`);
a missing key is the empty string (the source reads them via
`task_data.get(..., '')` and guards `notes` by truthiness). -/
structure TaskRecord where
  title : String
  description : String
  notes : String

/-- `parse_notes_for_handoff`: strip the `EXPLICIT_HANDOFF:` marker (all
occurrences, via `str.replace`), strip whitespace then surrounding quote
characters, and parse the remainder as JSON; any parse failure yields
`None`. -/
def parse_notes_for_handoff (notes : String) : Option Json :=
  if notes = "" || !(pyIn "EXPLICIT_HANDOFF:" notes) then none
  else
    let step1 := stripEnds wsChar (pyReplace notes "EXPLICIT_HANDOFF:" "").toList
    let jsonStr := String.mk (stripEnds (fun c => c == quoteChar || c == apostChar) step1)
    jsonLoads jsonStr

/-- Tags contributed by the notes annotation: the string elements of a
`specialist_tags` array in the parsed handoff object.  This is the
*non-raising projection* of that step: on payload shapes where the Python
raises an uncaught `TypeError` (a truthy non-dict payload reaching the
`'specialist_tags' in handoff_data` test, or a non-iterable
`specialist_tags` value reaching `tags.update`), it returns `∅`, so by
itself it makes the extraction look total.  The faithful fallible model
is `handoffTagsChecked` below; `handoffTagsChecked notes = .ok s` holds
on the shapes this projection is built for (array payloads), and the
raising shapes are `.error` there. -/
def handoffTags (notes : String) : Finset String :=
  match parse_notes_for_handoff notes with
  | some (Json.obj kvs) =>
    match jlookup kvs "specialist_tags" with
    | some (Json.arr l) =>
      (l.filterMap (fun v => match v with | Json.str s => some s | _ => none)).toFinset
    | _ => ∅
  | _ => ∅

/-- The fixed keyword-to-tag table of `extract_specialist_tags`. -/
def keyword_map : List (String × List String) :=
  [ ("python", ["python", "backend", "django", "flask", "fastapi"]),
    ("testing", ["testing", "tests", "pytest", "unittest", "validate", "test"]),
    ("mcp", ["mcp", "agent", "mail", "orchestrator", "coordination"]),
    ("frontend", ["react", "typescript", "javascript", "frontend", "ui", "component", "html", "css"]),
    ("database", ["database", "sql", "migration", "schema", "sqlite", "postgres", "mysql"]),
    ("documentation", ["documentation", "docs", "readme", "guide", "comment"]),
    ("shell", ["bash", "shell", "script", "automation"]),
    ("validation", ["validate", "verify", "check", "ensure"]),
    ("implementation", ["implement", "code", "develop", "create", "build"]),
    ("fixing", ["fix", "repair", "debug", "resolve"]),
    ("git", ["git", "commit", "history", "branch", "merge"]),
    ("figma", ["figma", "design", "ui", "mockup", "prototype"]) ]

/-- Tags auto-detected from the lower-cased `title + " " + description`:
a tag is added when any of its keywords occurs as a raw substring. -/
def autoTags (title description : String) : Finset String :=
  ((keyword_map.filter
      (fun p => p.2.any (fun kw => pyIn kw (pyLower (title ++ " " ++ description))))).map
    Prod.fst).toFinset

/-- `extract_specialist_tags`, total projection.  The Python returns
`list(tags)` of a set; consumers immediately re-set it, so the embedding
keeps the `Finset`.  Like `handoffTags`, this projection silently skips
the handoff shapes on which the Python raises; `extract_specialist_tags_checked`
below models those raising paths and is the authority for totality
questions. -/
def extract_specialist_tags (t : TaskRecord) : Finset String :=
  let tags := handoffTags t.notes ∪ autoTags t.title t.description
  if tags = ∅ then {"general"} else tags

/-- One registry entry (`load_agent_definitions`). -/
structure AgentInfo where
  specialist_tags : List String
  capabilities : List String
  description : String

/-- The default agent registry, in insertion order. -/
def agent_registry : List (String × AgentInfo) :=
  [ ("orchestrator",
     ⟨["coordination", "routing", "task-management"],
      ["task_delegation", "agent_coordination", "conflict_resolution"],
      "Main coordinator for task delegation and agent management"⟩),
    ("prd",
     ⟨["requirements", "planning", "documentation", "analysis"],
      ["prd_generation", "requirements_gathering", "specification"],
      "Generates Product Requirements Documents and specifications"⟩),
    ("generate-tasks",
     ⟨["task-generation", "planning", "breakdown"],
      ["task_breakdown", "parallelization", "dependency_mapping"],
      "Breaks down features into implementation tasks"⟩),
    ("task-coordinator",
     ⟨["bd", "bv", "beads", "task-tracking"],
      ["task_management", "dependency_tracking", "progress_monitoring"],
      "Manages task creation, tracking, and coordination using beads"⟩),
    ("codebase-researcher",
     ⟨["codebase", "research", "analysis", "patterns"],
      ["code_analysis", "pattern_detection", "architecture_review"],
      "Analyzes codebase for patterns, architecture, and technical context"⟩),
    ("git-history-analyzer",
     ⟨["git", "history", "analysis", "evolution"],
      ["commit_analysis", "change_tracking", "collaboration_analysis"],
      "Analyzes git history for patterns and team collaboration"⟩),
    ("figma-design-extractor",
     ⟨["figma", "design", "ui", "frontend"],
      ["design_extraction", "token_analysis", "component_specification"],
      "Extracts design tokens and specifications from Figma"⟩),
    ("implementation",
     ⟨["implementation", "coding", "development"],
      ["code_generation", "feature_implementation", "integration"],
      "Implements features and writes code"⟩),
    ("testing",
     ⟨["testing", "validation", "quality"],
      ["test_generation", "validation", "verification"],
      "Tests implementations and validates requirements"⟩),
    ("fixing",
     ⟨["fixing", "debugging", "repair"],
      ["bug_fixing", "issue_resolution", "troubleshooting"],
      "Fixes bugs and resolves issues identified in testing"⟩),
    ("verification",
     ⟨["verification", "review", "approval"],
      ["final_review", "sign_off", "quality_assurance"],
      "Verifies work is complete and ready for next phase"⟩) ]

/-- `self.agent_registry.get(name, {})`: a missing agent yields the empty
info (so `.get('specialist_tags', [])` yields `[]`). -/
def lookupAgent (name : String) : AgentInfo :=
  match jlookup agent_registry name with
  | some info => info
  | none => ⟨[], [], ""⟩

/-- Jaccard similarity `|A ∩ B| / |A ∪ B|` with the union-empty rule,
as an exact rational (the Python float quotients of these small
cardinalities round-trip exactly through the `>= 0.3` comparison). -/
def jaccard (a b : Finset String) : ℚ :=
  let total := (a ∪ b).card
  if total = 0 then 0 else ((a ∩ b).card : ℚ) / (total : ℚ)

/-- The per-agent score list of `match_agent_to_task`, in registry
(insertion) order. -/
def agentScores (tags : Finset String) : List (String × ℚ) :=
  agent_registry.map (fun p => (p.1, jaccard p.2.specialist_tags.toFinset tags))

/-- Python `max(items, key=lambda x: x[1])`: left fold keeping the first
maximum. -/
def pyMaxSnd : List (String × ℚ) → Option (String × ℚ)
  | [] => none
  | x :: xs => some (xs.foldl (fun acc y => if y.2 > acc.2 then y else acc) x)

/-- The score-threshold core of `match_agent_to_task`, operating on the
already-extracted tag set (the method is `matchTags ∘ extract`). -/
def matchTags (tags : Finset String) : Option String :=
  if tags = ∅ then none
  else
    match pyMaxSnd (agentScores tags) with
    | some best => if (3 : ℚ) / 10 ≤ best.2 then some best.1 else none
    | none => none

def match_agent_to_task (t : TaskRecord) : Option String :=
  matchTags (extract_specialist_tags t)

set_option maxRecDepth 4000

-- ### Routing suggestions (`get_routing_suggestion`)

/-- Banker's rounding to an integer (Python `round` rounds halves to the
nearest even integer). -/
def roundHalfEven (q : ℚ) : ℤ :=
  let f := Int.floor q
  if q - f < 1 / 2 then f
  else if q - f > 1 / 2 then f + 1
  else if f % 2 = 0 then f else f + 1

/-- Python `round(q, 1)`. -/
def pyRound1 (q : ℚ) : ℚ :=
  (roundHalfEven (10 * q) : ℚ) / 10

/-- The suggestion record.  The Python dict also carries a `reason`
string whose rendering joins a Python `set` in nondeterministic
iteration order; that display-only field is not modelled. -/
structure RoutingSuggestion where
  suggested_agent : Option String
  confidence : ℚ
  specialist_tags : Finset String

/-- `get_routing_suggestion`. -/
def get_routing_suggestion (t : TaskRecord) : RoutingSuggestion :=
  let specialist_tags := extract_specialist_tags t
  match match_agent_to_task t with
  | some agent =>
    let agent_tags := (lookupAgent agent).specialist_tags.toFinset
    let overlap := (agent_tags ∩ specialist_tags).card
    let total := (agent_tags ∪ specialist_tags).card
    let confidence : ℚ :=
      if 0 < total then ((overlap : ℚ) / (total : ℚ)) * 100 else 0
    { suggested_agent := some agent
      confidence := pyRound1 confidence
      specialist_tags := specialist_tags }
  | none =>
    { suggested_agent := none
      confidence := 0
      specialist_tags := specialist_tags }

-- ### Batch routing (`route_batch`)

/-- The routing report dict. -/
structure RouteReport where
  total_tasks : Nat
  successful_routes : Nat
  failed_routes : Nat
  assignments : List (String × Option String)
  errors : List (String × String)

/-- One step of the `route_batch` loop. -/
def routeStep (routeTask : String → Bool × String × Option String)
    (report : RouteReport) (task_id : String) : RouteReport :=
  let r := routeTask task_id
  if r.1 then
    { report with
      successful_routes := report.successful_routes + 1
      assignments := objSet report.assignments task_id r.2.2 }
  else
    { report with
      failed_routes := report.failed_routes + 1
      errors := report.errors ++ [(task_id, r.2.1)] }

/-- `route_batch`.  `route_task` shells out to `bd` and MCP, so it is an
external collaborator here: the loop is parameterised by a total
function `routeTask` returning `(success, message, assigned_agent)` —
exactly `route_task`'s interface, which catches all exceptions. -/
def route_batch (routeTask : String → Bool × String × Option String)
    (task_ids : List String) : RouteReport :=
  task_ids.foldl (routeStep routeTask)
    { total_tasks := task_ids.length
      successful_routes := 0
      failed_routes := 0
      assignments := []
      errors := [] }

-- ### Message factory (`handoff_protocol.create_task_assignment_message`)

/-- `create_base_message`.  The timestamp and the UUIDv4 message id come
from the clock and the RNG, so they are explicit inputs here. -/
def create_base_message (sender_id message_type timestamp message_id : String) :
    List (String × Json) :=
  [ ("version", Json.str "1.0.0"),
    ("timestamp", Json.str timestamp),
    ("sender_id", Json.str sender_id),
    ("message_id", Json.str message_id),
    ("type", Json.str message_type) ]

/-- Python `if x: message[k] = v` for an optional argument whose
truthiness is `cond`. -/
def addIf (cond : Bool) (m : List (String × Json)) (k : String) (v : Json) :
    List (String × Json) :=
  if cond then objSet m k v else m

/-- Truthiness of an optional list (Python: `None` and `[]` are falsy). -/
def truthyList {α : Type} : Option (List α) → Bool
  | none => false
  | some l => !l.isEmpty

/-- Truthiness of an optional int (Python: `None` and `0` are falsy). -/
def truthyInt : Option Int → Bool
  | none => false
  | some n => !(n == 0)

/-- Truthiness of an optional string (Python: `None` and `""` are falsy). -/
def truthyStr : Option String → Bool
  | none => false
  | some s => !(s == "")

/-- `create_task_assignment_message`.  Optional arguments default to
`none` (Python `None`). -/
def create_task_assignment_message
    (sender_id task_id description : String)
    (file_patterns : List String)
    (priority : String)
    (priority_value : Int)
    (specification : Option (List (String × Json)))
    (dependencies : Option (List String))
    (estimated_duration_minutes : Option Int)
    (deadline : Option String)
    (metadata : Option (List (String × Json)))
    (timestamp message_id : String) : List (String × Json) :=
  let m := create_base_message sender_id "task_assignment" timestamp message_id
  let m := objSet m "task_id" (Json.str task_id)
  let m := objSet m "description" (Json.str description)
  let m := objSet m "file_patterns" (Json.arr (file_patterns.map Json.str))
  let m := objSet m "priority" (Json.str priority)
  let m := objSet m "priority_value" (Json.num priority_value 0)
  let m := addIf (truthyList specification) m "specification"
    (Json.obj (specification.getD []))
  let m := addIf (truthyList dependencies) m "dependencies"
    (Json.arr ((dependencies.getD []).map Json.str))
  let m := addIf (truthyInt estimated_duration_minutes) m "estimated_duration_minutes"
    (Json.num (estimated_duration_minutes.getD 0) 0)
  let m := addIf (truthyStr deadline) m "deadline" (Json.str (deadline.getD ""))
  let m := addIf (truthyList metadata) m "metadata" (Json.obj (metadata.getD []))
  m

-- ### `Orchestrator.delegate_task` message content (orchestrator.py)

/-- The `message_content` dict built by `Orchestrator.delegate_task`
before it is sent over MCP (the send itself is the external transport).
`file_patterns or []` and `dependencies or []` are Python truthiness
fallbacks; `metadata` is added only when truthy. -/
def delegate_task_content
    (task_id description : String)
    (file_patterns : Option (List String))
    (priority : Int)
    (dependencies : Option (List String))
    (estimated_minutes : Int)
    (metadata : Option (List (String × Json))) : List (String × Json) :=
  let content : List (String × Json) :=
    [ ("type", Json.str "task_assignment"),
      ("task_id", Json.str task_id),
      ("description", Json.str description),
      ("file_patterns", Json.arr ((file_patterns.getD []).map Json.str)),
      ("priority", Json.str (if priority ≤ 1 then "high" else "normal")),
      ("priority_value", Json.num priority 0),
      ("estimated_duration_minutes", Json.num estimated_minutes 0),
      ("dependencies", Json.arr ((dependencies.getD []).map Json.str)) ]
  addIf (truthyList metadata) content "metadata" (Json.obj (metadata.getD []))

-- ### Helper lemmas

theorem jlookup_objSet_self {α : Type} (m : List (String × α)) (k : String) (v : α) :
    jlookup (objSet m k v) k = some v := by
  induction m with
  | nil => simp [objSet, jlookup]
  | cons p rest ih =>
    obtain ⟨k0, v0⟩ := p
    by_cases h0 : k0 = k
    · subst h0
      simp [objSet, jlookup]
    · simp [objSet, h0, jlookup, ih]

theorem jlookup_objSet_ne {α : Type} (m : List (String × α)) (k k2 : String) (v : α)
    (h : k ≠ k2) : jlookup (objSet m k v) k2 = jlookup m k2 := by
  induction m with
  | nil => simp [objSet, jlookup, h]
  | cons p rest ih =>
    obtain ⟨k0, v0⟩ := p
    by_cases h0 : k0 = k
    · subst h0
      simp [objSet, jlookup, h]
    · simp [objSet, h0, jlookup, ih]

theorem jlookup_addIf_ne (c : Bool) (m : List (String × Json)) (k k2 : String) (v : Json)
    (h : k ≠ k2) : jlookup (addIf c m k v) k2 = jlookup m k2 := by
  cases c
  · simp [addIf]
  · simp [addIf, jlookup_objSet_ne m k k2 v h]

theorem addIf_false (m : List (String × Json)) (k : String) (v : Json) :
    addIf false m k v = m := rfl

/-- The Python `max(..., key=...)` fold lands on a member of the list. -/
theorem pyFold_mem (x : String × ℚ) (xs : List (String × ℚ)) :
    xs.foldl (fun acc y => if y.2 > acc.2 then y else acc) x ∈ x :: xs := by
  induction xs generalizing x with
  | nil => simp
  | cons y ys ih =>
    simp only [List.foldl_cons]
    have h := ih (if y.2 > x.2 then y else x)
    rcases List.mem_cons.mp h with h1 | h1
    · rw [h1]
      by_cases hc : y.2 > x.2
      · rw [if_pos hc]
        exact List.mem_cons_of_mem x (List.mem_cons_self y ys)
      · rw [if_neg hc]
        exact List.mem_cons_self x (y :: ys)
    · exact List.mem_cons_of_mem x (List.mem_cons_of_mem y h1)

/-- The Python `max` fold dominates every listed score. -/
theorem pyFold_ge (x : String × ℚ) (xs : List (String × ℚ)) :
    ∀ z ∈ x :: xs, z.2 ≤ (xs.foldl (fun acc y => if y.2 > acc.2 then y else acc) x).2 := by
  induction xs generalizing x with
  | nil =>
    intro z hz
    rcases List.mem_cons.mp hz with rfl | h
    · exact le_refl _
    · cases h
  | cons y ys ih =>
    intro z hz
    simp only [List.foldl_cons]
    have hx : x.2 ≤ (if y.2 > x.2 then y else x).2 := by
      by_cases hc : y.2 > x.2
      · rw [if_pos hc]; exact le_of_lt hc
      · rw [if_neg hc]
    have hy : y.2 ≤ (if y.2 > x.2 then y else x).2 := by
      by_cases hc : y.2 > x.2
      · rw [if_pos hc]
      · rw [if_neg hc]; exact le_of_not_lt hc
    have hhead := ih (if y.2 > x.2 then y else x) _ (List.mem_cons_self _ ys)
    rcases List.mem_cons.mp hz with rfl | h1
    · exact le_trans hx hhead
    · rcases List.mem_cons.mp h1 with rfl | h2
      · exact le_trans hy hhead
      · exact ih _ z (List.mem_cons_of_mem _ h2)

theorem jaccard_empty_right (a : Finset String) : jaccard a ∅ = 0 := by
  unfold jaccard
  simp

theorem extractNonempty (t : TaskRecord) : (extract_specialist_tags t).Nonempty := by
  show (if (handoffTags t.notes ∪ autoTags t.title t.description) = ∅ then
      ({"general"} : Finset String)
    else handoffTags t.notes ∪ autoTags t.title t.description).Nonempty
  by_cases h : handoffTags t.notes ∪ autoTags t.title t.description = ∅
  · rw [if_pos h]
    exact ⟨"general", Finset.mem_singleton_self _⟩
  · rw [if_neg h]
    exact Finset.nonempty_iff_ne_empty.mpr h

-- ### C1

/-- C1: if a raw response's top-level `content` is a non-empty array whose
first element is a text block whose text contains `"Error"` (case
sensitive) or `"not found"` (case insensitive), normalization raises with
exactly that text, whatever else the response carries (`structuredContent`
and `result` keys included: `resp` is arbitrary here, and no shape rule
is consulted before the error check). -/
theorem embedded_error_precedence
    (resp : List (String × Json)) (c : Json) (cs : List Json) (t : String)
    (hcontent : jlookup resp "content" = some (Json.arr (c :: cs)))
    (htype : jget c "type" = some (Json.str "text"))
    (htext : jget c "text" = some (Json.str t))
    (herr : (pyIn "Error" t || pyIn "not found" (pyLower t)) = true) :
    extract_structured_content resp = Except.error t := by
  simp [extract_structured_content, hcontent, htype, htext, herr]

def c1resp : List (String × Json) :=
  [("content", Json.arr [Json.obj [("type", Json.str "text"),
    ("text", Json.str "Agent not found")]])]

/-- C1 witness: the spec scenario input raises with "Agent not found". -/
theorem embedded_error_precedence_witness :
    extract_structured_content c1resp = Except.error "Agent not found" :=
  embedded_error_precedence c1resp
    (Json.obj [("type", Json.str "text"), ("text", Json.str "Agent not found")]) []
    "Agent not found" rfl rfl rfl rfl

-- ### C2

def c2marker : String :=
  "EXPLICIT_HANDOFF: \x7b\"specialist_tags\":[\"testing\",\"python\"]\x7d"

def c2bad : TaskRecord := ⟨"", "", "x " ++ c2marker⟩

/-- C2 counterexample: notes that contain the `EXPLICIT_HANDOFF:` JSON
substring *with other text around it* do not yield the handoff tags:
`parse_notes_for_handoff` strips only the marker itself and feeds the
whole remainder (still prefixed by the surrounding text) to `json.loads`,
which fails, so the tags fall back to `{"general"}`. -/
theorem handoff_superset_cex :
    pyIn c2marker c2bad.notes = true ∧
    extract_specialist_tags c2bad = {"general"} ∧
    ¬ ({"testing", "python"} : Finset String) ⊆ extract_specialist_tags c2bad := by
  refine ⟨by decide, by decide, by decide⟩

/-- C2 (amended): when the notes field consists of the marker followed by
the JSON payload `{"specialist_tags":["testing","python"]}` and nothing
else (any title and description), the extracted tag set is a superset of
`{"testing", "python"}`. -/
theorem handoff_superset (title description : String) :
    ({"testing", "python"} : Finset String) ⊆
      extract_specialist_tags ⟨title, description, c2marker⟩ := by
  have h : handoffTags c2marker = ({"testing", "python"} : Finset String) := by decide
  simp only [extract_specialist_tags]
  rw [h]
  have hne : ({"testing", "python"} : Finset String) ∪ autoTags title description ≠ ∅ := by
    intro hcontra
    have hmem : "testing" ∈
        (({"testing", "python"} : Finset String) ∪ autoTags title description) :=
      Finset.mem_union_left _ (by simp)
    rw [hcontra] at hmem
    exact absurd hmem (Finset.not_mem_empty _)
  rw [if_neg hne]
  exact Finset.subset_union_left

-- ### C4

/-- C4 (amended): for a response with a `result` key and a `content` key
whose first element is a text block, which does not trigger the embedded
error rule, *and which has no `structuredContent` key* (that key is
checked first and would win), normalization returns the JSON parse of the
text when it parses, and the whole raw response otherwise. -/
theorem wrapped_result_parse
    (resp : List (String × Json)) (r c : Json) (cs : List Json) (t : String)
    (hsc : jlookup resp "structuredContent" = none)
    (hres : jlookup resp "result" = some r)
    (hcontent : jlookup resp "content" = some (Json.arr (c :: cs)))
    (htype : jget c "type" = some (Json.str "text"))
    (htext : jget c "text" = some (Json.str t))
    (herr : (pyIn "Error" t || pyIn "not found" (pyLower t)) = false) :
    (∀ v, jsonLoads t = some v → extract_structured_content resp = Except.ok v) ∧
    (jsonLoads t = none → extract_structured_content resp = Except.ok (Json.obj resp)) := by
  constructor
  · intro v hv
    simp [extract_structured_content, hcontent, htype, htext, herr, hsc, hres, hv]
  · intro hv
    simp [extract_structured_content, hcontent, htype, htext, herr, hsc, hres, hv]

def c4resp : List (String × Json) :=
  [("result", Json.obj [("ok", Json.bool true)]),
   ("content", Json.arr [Json.obj [("type", Json.str "text"),
     ("text", Json.str "\x7b\"ok\":true\x7d")]])]

/-- C4 witness: the spec scenario normalizes to the parsed inner object,
not the outer envelope. -/
theorem wrapped_result_parse_witness :
    extract_structured_content c4resp = Except.ok (Json.obj [("ok", Json.bool true)]) :=
  (wrapped_result_parse c4resp (Json.obj [("ok", Json.bool true)])
      (Json.obj [("type", Json.str "text"), ("text", Json.str "\x7b\"ok\":true\x7d")]) []
      "\x7b\"ok\":true\x7d" rfl rfl rfl rfl rfl rfl).1
    (Json.obj [("ok", Json.bool true)]) rfl

def c4bad : List (String × Json) :=
  [("structuredContent", Json.num 1 0),
   ("result", Json.obj [("ok", Json.bool true)]),
   ("content", Json.arr [Json.obj [("type", Json.str "text"),
     ("text", Json.str "\x7b\"ok\":true\x7d")]])]

/-- C4 counterexample: a response that meets every condition the claim
states (both `result` and `content` present, `content[0].type = "text"`,
no embedded error, the text parses as JSON) but also carries a
`structuredContent` key normalizes to that `structuredContent` (here the
number 1), not to the parsed text, falsifying the claim as stated. -/
theorem wrapped_result_parse_cex :
    jlookup c4bad "result" = some (Json.obj [("ok", Json.bool true)]) ∧
    jlookup c4bad "content" = some (Json.arr [Json.obj [("type", Json.str "text"),
      ("text", Json.str "\x7b\"ok\":true\x7d")]]) ∧
    (pyIn "Error" "\x7b\"ok\":true\x7d" ||
      pyIn "not found" (pyLower "\x7b\"ok\":true\x7d")) = false ∧
    jsonLoads "\x7b\"ok\":true\x7d" = some (Json.obj [("ok", Json.bool true)]) ∧
    extract_structured_content c4bad = Except.ok (Json.num 1 0) ∧
    Json.num 1 0 ≠ Json.obj [("ok", Json.bool true)] :=
  ⟨rfl, rfl, rfl, rfl, rfl, fun h => Json.noConfusion h⟩

-- ### C3

theorem agentScores_empty_snd (p : String × ℚ) (hp : p ∈ agentScores ∅) : p.2 = 0 := by
  unfold agentScores at hp
  obtain ⟨entry, _, hentry⟩ := List.mem_map.mp hp
  rw [← hentry]
  exact jaccard_empty_right _

/-- C3: the tag-matching core of `match_agent_to_task` returns an agent
carrying the maximum Jaccard score exactly when that maximum is at least
3/10 (the boundary is inclusive), and returns `None` whenever every
score is strictly below 3/10.  (`match_agent_to_task t` is by definition
`matchTags (extract_specialist_tags t)`.) -/
theorem match_threshold (tags : Finset String) :
    (∀ a, matchTags tags = some a →
      ∃ s, (a, s) ∈ agentScores tags ∧ (3 : ℚ) / 10 ≤ s ∧
        ∀ p ∈ agentScores tags, p.2 ≤ s) ∧
    ((∃ p ∈ agentScores tags, (3 : ℚ) / 10 ≤ p.2) → ∃ a, matchTags tags = some a) ∧
    ((∀ p ∈ agentScores tags, p.2 < (3 : ℚ) / 10) → matchTags tags = none) := by
  by_cases h0 : tags = ∅
  · subst h0
    refine ⟨?_, ?_, ?_⟩
    · intro a ha
      rw [matchTags, if_pos rfl] at ha
      cases ha
    · rintro ⟨p, hp, hps⟩
      have hz := agentScores_empty_snd p hp
      rw [hz] at hps
      norm_num at hps
    · intro _
      rw [matchTags, if_pos rfl]
  · simp only [matchTags, if_neg h0]
    generalize agentScores tags = l
    cases l with
    | nil =>
      refine ⟨?_, ?_, ?_⟩
      · intro a ha
        simp only [pyMaxSnd] at ha
        cases ha
      · rintro ⟨p, hp, _⟩
        cases hp
      · intro _
        rfl
    | cons x xs =>
      refine ⟨?_, ?_, ?_⟩
      · intro a ha
        simp only [pyMaxSnd] at ha
        split at ha
        next h =>
          refine ⟨_, ?_, h, pyFold_ge x xs⟩
          rw [← Option.some.inj ha, Prod.mk.eta]
          exact pyFold_mem x xs
        next h => cases ha
      · rintro ⟨p, hp, hps⟩
        have hge := le_trans hps (pyFold_ge x xs p hp)
        simp only [pyMaxSnd]
        rw [if_pos hge]
        exact ⟨_, rfl⟩
      · intro hall
        have hlt := hall _ (pyFold_mem x xs)
        simp only [pyMaxSnd]
        rw [if_neg (not_le.mpr hlt)]

/-- C3 witness: for the tag set `{"testing"}` the maximum score is the
`testing` agent's 1/3 ≥ 3/10, and the matcher selects it. -/
theorem match_threshold_witness :
    ∃ s, ("testing", s) ∈ agentScores {"testing"} ∧ (3 : ℚ) / 10 ≤ s ∧
      ∀ p ∈ agentScores {"testing"}, p.2 ≤ s :=
  (match_threshold {"testing"}).1 "testing" (by with_unfolding_all decide)

-- ### C5

/-- C6: the task "Write pytest tests for JWT endpoint" (empty description
and notes) routed against the default registry selects the agent named
"testing", whose specialist tags include "testing", and that agent's
Jaccard score against the extracted tag set is at least 3/10. -/
theorem pytest_task_routes_to_testing :
    match_agent_to_task ⟨"Write pytest tests for JWT endpoint", "", ""⟩ = some "testing" ∧
    "testing" ∈ (lookupAgent "testing").specialist_tags ∧
    (3 : ℚ) / 10 ≤ jaccard (lookupAgent "testing").specialist_tags.toFinset
      (extract_specialist_tags ⟨"Write pytest tests for JWT endpoint", "", ""⟩) := by
  refine ⟨?_, ?_, ?_⟩ <;> with_unfolding_all decide

-- ### C7

/-- C7: reading back `task_id`, `file_patterns` and `priority_value` from
a constructed `task_assignment` envelope returns exactly the supplied
values, whatever the optional arguments are; and *each* optional
argument left at its default (`None`) leaves its key absent from the
envelope (not present with a null value), whatever the other optional
arguments are — one conjunct per optional, with the remaining four
arbitrary. -/
theorem assignment_roundtrip
    (sender_id task_id description : String) (file_patterns : List String)
    (priority : String) (priority_value : Int)
    (specification : Option (List (String × Json)))
    (dependencies : Option (List String))
    (estimated_duration_minutes : Option Int)
    (deadline : Option String)
    (metadata : Option (List (String × Json)))
    (timestamp message_id : String) :
    (jlookup (create_task_assignment_message sender_id task_id description file_patterns
        priority priority_value specification dependencies estimated_duration_minutes
        deadline metadata timestamp message_id) "task_id" = some (Json.str task_id) ∧
     jlookup (create_task_assignment_message sender_id task_id description file_patterns
        priority priority_value specification dependencies estimated_duration_minutes
        deadline metadata timestamp message_id) "file_patterns"
       = some (Json.arr (file_patterns.map Json.str)) ∧
     jlookup (create_task_assignment_message sender_id task_id description file_patterns
        priority priority_value specification dependencies estimated_duration_minutes
        deadline metadata timestamp message_id) "priority_value"
       = some (Json.num priority_value 0)) ∧
    (jlookup (create_task_assignment_message sender_id task_id description file_patterns
        priority priority_value none dependencies estimated_duration_minutes
        deadline metadata timestamp message_id) "specification" = none ∧
     jlookup (create_task_assignment_message sender_id task_id description file_patterns
        priority priority_value specification none estimated_duration_minutes
        deadline metadata timestamp message_id) "dependencies" = none ∧
     jlookup (create_task_assignment_message sender_id task_id description file_patterns
        priority priority_value specification dependencies none
        deadline metadata timestamp message_id) "estimated_duration_minutes" = none ∧
     jlookup (create_task_assignment_message sender_id task_id description file_patterns
        priority priority_value specification dependencies estimated_duration_minutes
        none metadata timestamp message_id) "deadline" = none ∧
     jlookup (create_task_assignment_message sender_id task_id description file_patterns
        priority priority_value specification dependencies estimated_duration_minutes
        deadline none timestamp message_id) "metadata" = none) := by
  constructor
  · refine ⟨?_, ?_, ?_⟩ <;>
    · simp only [create_task_assignment_message]
      rw [jlookup_addIf_ne _ _ _ _ _ (by decide), jlookup_addIf_ne _ _ _ _ _ (by decide),
        jlookup_addIf_ne _ _ _ _ _ (by decide), jlookup_addIf_ne _ _ _ _ _ (by decide),
        jlookup_addIf_ne _ _ _ _ _ (by decide)]
      rfl
  · refine ⟨?_, ?_, ?_, ?_, ?_⟩ <;>
    · simp only [create_task_assignment_message, truthyList, truthyInt, truthyStr, addIf_false]
      rw [jlookup_addIf_ne _ _ _ _ _ (by decide), jlookup_addIf_ne _ _ _ _ _ (by decide),
        jlookup_addIf_ne _ _ _ _ _ (by decide), jlookup_addIf_ne _ _ _ _ _ (by decide)]
      rfl

-- ### C8

/-- C8: `get_routing_suggestion` agrees with `match_agent_to_task` on
every task: the suggested agent is exactly the matcher result, and the
confidence is the matched agent's Jaccard score times 100 rounded to one
decimal place when an agent is suggested, and 0 (with no suggested
agent) otherwise. -/
theorem suggestion_agrees (t : TaskRecord) :
    (get_routing_suggestion t).suggested_agent = match_agent_to_task t ∧
    (get_routing_suggestion t).confidence =
      (match match_agent_to_task t with
       | some a => pyRound1
           (100 * jaccard (lookupAgent a).specialist_tags.toFinset (extract_specialist_tags t))
       | none => 0) := by
  cases hm : match_agent_to_task t with
  | none => simp [get_routing_suggestion, hm]
  | some a =>
    have hpos : 0 < ((lookupAgent a).specialist_tags.toFinset ∪ extract_specialist_tags t).card := by
      obtain ⟨x, hx⟩ := extractNonempty t
      exact Finset.card_pos.mpr ⟨x, Finset.mem_union_right _ hx⟩
    constructor
    · simp [get_routing_suggestion, hm]
    · simp only [get_routing_suggestion, hm]
      rw [if_pos hpos]
      unfold jaccard
      rw [if_neg (Nat.pos_iff_ne_zero.mp hpos)]
      ring_nf

-- ### C9

theorem routeFold_total (f : String → Bool × String × Option String)
    (ids : List String) (acc : RouteReport) :
    (ids.foldl (routeStep f) acc).total_tasks = acc.total_tasks := by
  induction ids generalizing acc with
  | nil => rfl
  | cons j rest ih =>
    rw [List.foldl_cons, ih]
    by_cases hj : (f j).1 <;> simp [routeStep, hj]

theorem routeFold_counts (f : String → Bool × String × Option String)
    (ids : List String) (acc : RouteReport) :
    (ids.foldl (routeStep f) acc).successful_routes
      + (ids.foldl (routeStep f) acc).failed_routes
      = acc.successful_routes + acc.failed_routes + ids.length := by
  induction ids generalizing acc with
  | nil => rfl
  | cons j rest ih =>
    rw [List.foldl_cons, ih]
    by_cases hj : (f j).1 <;> simp [routeStep, hj] <;> omega

theorem routeFold_errors (f : String → Bool × String × Option String)
    (ids : List String) (acc : RouteReport) :
    (ids.foldl (routeStep f) acc).errors
      = acc.errors ++ (ids.filter (fun id => !(f id).1)).map (fun id => (id, (f id).2.1)) := by
  induction ids generalizing acc with
  | nil => simp
  | cons j rest ih =>
    rw [List.foldl_cons, ih]
    by_cases hj : (f j).1 <;> simp [routeStep, hj, List.filter_cons]

theorem routeFold_assign_keep (f : String → Bool × String × Option String)
    (ids : List String) (acc : RouteReport) (id : String)
    (h : jlookup acc.assignments id = some ((f id).2.2)) :
    jlookup ((ids.foldl (routeStep f) acc)).assignments id = some ((f id).2.2) := by
  induction ids generalizing acc with
  | nil => exact h
  | cons j rest ih =>
    rw [List.foldl_cons]
    refine ih _ ?_
    by_cases hj : (f j).1
    · simp only [routeStep, hj, if_true]
      by_cases hid : j = id
      · subst hid
        rw [jlookup_objSet_self]
      · rw [jlookup_objSet_ne _ _ _ _ hid]
        exact h
    · simpa [routeStep, hj] using h

theorem routeFold_assign_mem (f : String → Bool × String × Option String)
    (ids : List String) (acc : RouteReport) (id : String)
    (hmem : id ∈ ids) (hsucc : (f id).1 = true) :
    jlookup ((ids.foldl (routeStep f) acc)).assignments id = some ((f id).2.2) := by
  induction ids generalizing acc with
  | nil => cases hmem
  | cons j rest ih =>
    rw [List.foldl_cons]
    rcases List.mem_cons.mp hmem with rfl | hmem2
    · refine routeFold_assign_keep f rest _ id ?_
      simp only [routeStep, hsucc, if_true]
      rw [jlookup_objSet_self]
    · exact ih _ hmem2

/-- C9: `route_batch` routes every task independently of earlier
failures, and the report is coherent: `total_tasks` is the input length,
successes plus failures equal the total, every successfully routed id is
a key of `assignments` mapped to its assigned agent, and the error list
carries exactly one entry (id and message) per failing task, in order. -/
theorem route_batch_report (f : String → Bool × String × Option String)
    (ids : List String) :
    (route_batch f ids).total_tasks = ids.length ∧
    (route_batch f ids).successful_routes + (route_batch f ids).failed_routes
      = ids.length ∧
    (route_batch f ids).errors.map Prod.fst = ids.filter (fun id => !(f id).1) ∧
    (∀ id ∈ ids, (f id).1 = true →
      jlookup (route_batch f ids).assignments id = some ((f id).2.2)) ∧
    (∀ id ∈ ids, (f id).1 = false →
      (id, (f id).2.1) ∈ (route_batch f ids).errors) := by
  refine ⟨?_, ?_, ?_, ?_, ?_⟩
  · rw [route_batch, routeFold_total]
  · rw [route_batch, routeFold_counts]
    simp
  · rw [route_batch, routeFold_errors]
    simp [Function.comp_def]
  · intro id hmem hsucc
    exact routeFold_assign_mem f ids _ id hmem hsucc
  · intro id hmem hfail
    rw [route_batch, routeFold_errors]
    refine List.mem_append.mpr (Or.inr ?_)
    exact List.mem_map.mpr ⟨id, List.mem_filter.mpr ⟨hmem, by simp [hfail]⟩, rfl⟩

def c9route (id : String) : Bool × String × Option String :=
  if id = "t2" then (false, "No suitable agent found for task t2", none)
  else (true, "routed", some ("agent-" ++ id))

/-- C9 witness: in a concrete three-task batch whose middle task fails,
the later task is still routed and the failure contributes its error
entry. -/
theorem route_batch_report_witness :
    jlookup (route_batch c9route ["t1", "t2", "t3"]).assignments "t3"
      = some (some "agent-t3") ∧
    ("t2", "No suitable agent found for task t2")
      ∈ (route_batch c9route ["t1", "t2", "t3"]).errors :=
  ⟨(route_batch_report c9route ["t1", "t2", "t3"]).2.2.2.1 "t3" (by decide) rfl,
   (route_batch_report c9route ["t1", "t2", "t3"]).2.2.2.2 "t2" (by decide) rfl⟩

-- ### C10

/-- C10: in the task-assignment content built by
`Orchestrator.delegate_task`, the `priority` string is "high" exactly
when the numeric priority is at most 1 and "normal" otherwise, while
`priority_value` carries the numeric argument unchanged; in particular
the strings "urgent" and "low" are never emitted (so priority 0 yields
("high", 0) and priority 3 yields ("normal", 3)). -/
theorem delegate_priority_mapping
    (task_id description : String) (file_patterns : Option (List String))
    (priority : Int) (dependencies : Option (List String)) (estimated_minutes : Int)
    (metadata : Option (List (String × Json))) :
    jlookup (delegate_task_content task_id description file_patterns priority dependencies
        estimated_minutes metadata) "priority"
      = some (Json.str (if priority ≤ 1 then "high" else "normal")) ∧
    jlookup (delegate_task_content task_id description file_patterns priority dependencies
        estimated_minutes metadata) "priority_value" = some (Json.num priority 0) ∧
    jlookup (delegate_task_content task_id description file_patterns priority dependencies
        estimated_minutes metadata) "priority" ≠ some (Json.str "urgent") ∧
    jlookup (delegate_task_content task_id description file_patterns priority dependencies
        estimated_minutes metadata) "priority" ≠ some (Json.str "low") := by
  have hp : jlookup (delegate_task_content task_id description file_patterns priority
      dependencies estimated_minutes metadata) "priority"
      = some (Json.str (if priority ≤ 1 then "high" else "normal")) := by
    simp only [delegate_task_content]
    rw [jlookup_addIf_ne _ _ _ _ _ (by decide)]
    rfl
  have hv : jlookup (delegate_task_content task_id description file_patterns priority
      dependencies estimated_minutes metadata) "priority_value"
      = some (Json.num priority 0) := by
    simp only [delegate_task_content]
    rw [jlookup_addIf_ne _ _ _ _ _ (by decide)]
    rfl
  refine ⟨hp, hv, ?_, ?_⟩
  · rw [hp]
    by_cases h1 : priority ≤ 1 <;> simp [h1]
  · rw [hp]
    by_cases h1 : priority ≤ 1 <;> simp [h1]
